import Mathlib

/-!
# Eco-Scholar adaptive qualification pipeline — verification development

Shallow embedding of the qualification pipeline of
`Eco-Scholar--automated-AI-paper-collector-for-Zotero`.

`src/App.tsx` contains two successive revisions of the application component.
The later revision (starting at line 645, with `processPaperBatch` at line 868
and `handleRunCycle` at line 1073) is the one that owns the
`failFastTriggered` field of the cycle state and is the revision embedded
here; JavaScript numbers are modelled as exact rationals (`ℚ`), counters as
`ℕ`, and the external judgment oracle's response as explicit data.
-/

namespace EcoScholar

/-- Global policy and threshold configuration, from `config` in `App.tsx`
(later revision).  `vecMin` and `compMin` stand for the per-query effective
thresholds `currentItem.vecMin ?? config.minVectorScore` and
`currentItem.compMin ?? config.minCompositeScore` (App.tsx lines 919-920). -/
structure Config where
  failFast : Bool
  speedupSampleCount : ℕ
  speedupQualifyRate : ℚ
  vecMin : ℚ
  compMin : ℚ
deriving DecidableEq, Repr

/-- Per-query mutable statistics, `cycleRef.current` in `App.tsx` line 765 /
line 1128: `{ processedCount: 0, qualifiedCount: 0, failFastTriggered: false }`. -/
structure CycleState where
  processedCount : ℕ
  qualifiedCount : ℕ
  failFastTriggered : Bool
deriving DecidableEq, Repr

/-- `cycleRef.current` as reset at the start of every query
(App.tsx line 1128). -/
def initialCycleState : CycleState := ⟨0, 0, false⟩

/-- The terminal status values of `ProcessingResult['status']`
(src/unnamed/part_000 line 45). -/
inductive Status where
  | FILTERED_OUT
  | PENDING_AI
  | AI_REJECTED
  | QUALIFIED
  | QUALIFIED_SPEEDUP
  | SKIPPED_FAIL_FAST
deriving DecidableEq, Repr

/-- The fields of the oracle's analysis that the pipeline consumes
(`aiAnalysis` in `App.tsx`; the `analyzePaper` return value in
`src/services/ollamaService.ts`). -/
structure Analysis where
  qualified : Bool
  score : ℚ
  probability : ℚ
  summary : String
deriving DecidableEq, Repr

/-- Resolution of the raced judgment call in `App.tsx` lines 983-1020:
the `Promise.race` of the oracle call, the 70-second timer, and the manual
skip control resolves to exactly one of these variants (a manual RETRY
re-enters the race, so a terminated race is one of the four below). -/
inductive AiCallResult where
  | success (a : Analysis)
  | error
  | timeout
  | skip
deriving DecidableEq, Repr

/-- The `aiAnalysis` value produced by each race outcome
(App.tsx lines 1000-1014). -/
def resolveAiCall : AiCallResult → Analysis
  | .success a => a
  | .error => ⟨false, 0, 0, "Analysis Failed (Error)"⟩
  | .timeout => ⟨false, 0, 0, "Analysis Timed Out (Auto-skipped)"⟩
  | .skip => ⟨false, 0, 0, "Skipped by User"⟩

/-- One document as seen by the decision engine: its two pre-filter scores
and the (externally determined) resolution of its judgment call, should the
engine invoke the oracle. -/
structure PaperInput where
  vectorScore : ℚ
  compositeScore : ℚ
  aiCall : AiCallResult
deriving DecidableEq, Repr

/-- `Math.max(1, Math.ceil(config.speedupSampleCount * config.speedupQualifyRate))`
(App.tsx line 940). -/
def targetQualifiedCount (cfg : Config) : ℤ :=
  max 1 ⌈(cfg.speedupSampleCount : ℚ) * cfg.speedupQualifyRate⌉

/-- The pre-filter `passedVector || passedComposite` (App.tsx lines 919-920, 927). -/
def prefilterPass (cfg : Config) (p : PaperInput) : Bool :=
  decide (cfg.vecMin ≤ p.vectorScore) || decide (cfg.compMin ≤ p.compositeScore)

/-- What one iteration of the document loop produces for one document:
its terminal status, the cycle state after the document, the `aiAnalysis`
attached to its result record (`none` when the oracle was not invoked),
and the `skippedAi` flag. -/
structure StepResult where
  status : Status
  state : CycleState
  aiAnalysis : Option Analysis
  skippedAi : Bool
deriving DecidableEq, Repr

/-- The per-document decision logic of `processPaperBatch`
(App.tsx lines 922-1032, later revision): pre-filter, conditional increment
of `processedCount`, fail-fast check, speedup eligibility, judgment branch. -/
def processPaper (cfg : Config) (st : CycleState) (p : PaperInput) : StepResult :=
  -- `cycleRef.current.processedCount++` happens only inside the pre-filter
  -- branch (App.tsx line 928); below, `st.processedCount + 1` is the
  -- incremented counter the subsequent checks read.
  if prefilterPass cfg p then
    -- 1. FAIL FAST CHECK (App.tsx lines 932-937)
    if cfg.failFast ∧ cfg.speedupSampleCount ≤ st.processedCount + 1 ∧ st.qualifiedCount = 0 then
      { status := .SKIPPED_FAIL_FAST,
        state := ⟨st.processedCount + 1, st.qualifiedCount, true⟩,
        aiAnalysis := none, skippedAi := true }
    -- 2. SPEEDUP ELIGIBILITY (App.tsx lines 940-943):
    --    `!isFirstPaper && (qualifiedCount >= targetQualifiedCount)`
    else if ¬ st.processedCount + 1 = 1 ∧ targetQualifiedCount cfg ≤ (st.qualifiedCount : ℤ) then
      { status := .QUALIFIED_SPEEDUP,
        state := ⟨st.processedCount + 1, st.qualifiedCount + 1, st.failFastTriggered⟩,
        aiAnalysis := none, skippedAi := true }
    -- AI ANALYSIS (App.tsx lines 966-1031); the judgment outcome decides
    -- QUALIFIED vs AI_REJECTED via `aiAnalysis.qualified` (lines 1023-1028)
    else if (resolveAiCall p.aiCall).qualified then
      { status := .QUALIFIED,
        state := ⟨st.processedCount + 1, st.qualifiedCount + 1, st.failFastTriggered⟩,
        aiAnalysis := some (resolveAiCall p.aiCall), skippedAi := false }
    else
      { status := .AI_REJECTED,
        state := ⟨st.processedCount + 1, st.qualifiedCount, st.failFastTriggered⟩,
        aiAnalysis := some (resolveAiCall p.aiCall), skippedAi := false }
  else
    { status := .FILTERED_OUT, state := st, aiAnalysis := none, skippedAi := true }

/-- What a call to `processPaperBatch` produces: the final cycle state, the
result records appended to the feed, and the boolean the function returns
(`true` exactly when the batch loop should stop). -/
structure BatchResult where
  state : CycleState
  results : List StepResult
  shouldStop : Bool
deriving DecidableEq, Repr

/-- The document loop of `processPaperBatch` (App.tsx lines 889-1070, later
revision): before each document it returns `true` when `failFastTriggered`
is already set (line 891), and after recording a document's result it
returns `true` when that document set `failFastTriggered` (line 1068). -/
def processPaperBatch (cfg : Config) : CycleState → List PaperInput → BatchResult
  | st, [] => ⟨st, [], false⟩
  | st, p :: rest =>
    if st.failFastTriggered then ⟨st, [], true⟩
    else
      let r := processPaper cfg st p
      if r.state.failFastTriggered then ⟨r.state, [r], true⟩
      else
        let b := processPaperBatch cfg r.state rest
        ⟨b.state, r :: b.results, b.shouldStop⟩

/-- The page loop of `handleRunCycle` (App.tsx lines 1168-1245, later
revision), abstracted over the already-fetched pages: it breaks before
fetching a page when `failFastTriggered` is set (lines 1172-1175), and
breaks when `processPaperBatch` returned `true` (lines 1237-1240). -/
def runPages (cfg : Config) : CycleState → List (List PaperInput) → BatchResult
  | st, [] => ⟨st, [], false⟩
  | st, page :: rest =>
    if st.failFastTriggered then ⟨st, [], true⟩
    else
      let b := processPaperBatch cfg st page
      if b.shouldStop then ⟨b.state, b.results, true⟩
      else
        let b2 := runPages cfg b.state rest
        ⟨b2.state, b.results ++ b2.results, b2.shouldStop⟩

/-! ## Judgment-oracle post-processing (`src/services/ollamaService.ts`) -/

/-- The parsed JSON object returned by one oracle inference
(`runInference` in `src/services/ollamaService.ts`): fields the model may
omit are `Option`s (`json.score ?? 0` / `json.probability ?? 0` read an
absent field as 0, while `json.probability === 0` is false on an absent
field). -/
structure OracleJson where
  qualified : Bool
  score : Option ℚ
  probability : Option ℚ
  summary : String
deriving DecidableEq, Repr

/-- The corrective re-query of `analyzePaper`
(src/services/ollamaService.ts lines 447-461): when the first response has
`probability === 0`, one retry inference is run (`retry` is its outcome:
`.ok` a parsed response, `.error` an exception) and its result replaces the
original only when `retryJson.probability > 0`.  The second component
counts the oracle inferences issued. -/
def retryOnZeroProbability (first : OracleJson) (retry : Except Unit OracleJson) :
    OracleJson × ℕ :=
  if first.probability = some 0 then
    match retry with
    | .ok retryJson =>
        if 0 < retryJson.probability.getD 0 then (retryJson, 2) else (first, 2)
    | .error _ => (first, 2)
  else (first, 1)

/-- The field normalization at the end of `analyzePaper`
(src/services/ollamaService.ts lines 475-494):
`rawScore = json.score ?? 0`, `clampedScore = Math.min(rawScore, 10)`,
`isQualified = !!json.qualified || rawScore >= 6`, and
`probability: json.probability ?? 0`. -/
def finalizeAnalysis (json : OracleJson) : Analysis :=
  let rawScore := json.score.getD 0
  let clampedScore := min rawScore 10
  let aiQualified := json.qualified
  let isQualified := aiQualified || decide (6 ≤ rawScore)
  { qualified := isQualified, score := clampedScore,
    probability := json.probability.getD 0, summary := json.summary }

/-- `analyzePaper` (src/services/ollamaService.ts lines 443-494), abstracted
over the two inference outcomes: retry-on-zero-probability followed by field
normalization, paired with the number of oracle inferences issued. -/
def analyzePaper (first : OracleJson) (retry : Except Unit OracleJson) : Analysis × ℕ :=
  let jc := retryOnZeroProbability first retry
  (finalizeAnalysis jc.1, jc.2)

/-! ## Vector and rule scoring (`processPaperBatch`, App.tsx lines 896-917) -/

/-- Modelled from the spec: `cosineSimilarity` lives in
`src/services/vectorService.ts`, which `App.tsx` imports (line 650) but
which is absent from `src/`.  Spec §4.1: the dot product divided by the
product of magnitudes, returning zero when either input is absent/empty or
either magnitude is zero.  The rational square root used here agrees with
the real square root exactly on perfect squares; every concrete embedding
in this file has a perfect-square squared magnitude. -/
def cosineSimilarity (a b : List ℚ) : ℚ :=
  let dotAB := (List.zipWith (fun x y => x * y) a b).sum
  let magA := Rat.sqrt ((List.zipWith (fun x y => x * y) a a).sum)
  let magB := Rat.sqrt ((List.zipWith (fun x y => x * y) b b).sum)
  if a = [] ∨ b = [] ∨ magA = 0 ∨ magB = 0 then 0
  else dotAB / (magA * magB)

/-- An enabled semantic rule with its precomputed embedding, an element of
`validSentenceVectors` in `App.tsx` (`SemanticSentence` of
src/unnamed/part_000 plus its `vector`). -/
structure SentenceVector where
  id : String
  text : String
  customTag : String
  positive : Bool
  vector : List ℚ
deriving DecidableEq, Repr

/-- `MatchDetail` (src/unnamed/part_000 lines 12-18). -/
structure MatchDetail where
  sentenceId : String
  sentence : String
  tag : String
  netScore : ℚ
  rawScore : ℚ
deriving DecidableEq, Repr

/-- The match record pushed for a rule whose raw similarity exceeds 0.35
(App.tsx lines 908-911). -/
def mkMatchDetail (sv : SentenceVector) (paperVector : List ℚ) : MatchDetail :=
  let similarity := cosineSimilarity sv.vector paperVector
  { sentenceId := sv.id, sentence := sv.text, tag := sv.customTag,
    netScore := if sv.positive then similarity else -similarity,
    rawScore := similarity }

/-- The per-rule signed contributions, `ruleScores` in App.tsx lines 904-915:
raw similarity for a positive rule, negated for a penalty rule, in rule order. -/
def signedContributions (svs : List SentenceVector) (paperVector : List ℚ) : List ℚ :=
  svs.map fun sv =>
    let similarity := cosineSimilarity sv.vector paperVector
    if sv.positive then similarity else -similarity

/-- One iteration of the `validSentenceVectors.map` loop of App.tsx lines
904-915, accumulating the signed contribution (`ruleScores`) and, when the
raw similarity exceeds 0.35, the pushed match record. -/
def scanRule (paperVector : List ℚ) (acc : List ℚ × List MatchDetail)
    (sv : SentenceVector) : List ℚ × List MatchDetail :=
  let similarity := cosineSimilarity sv.vector paperVector
  let weightedScore := if sv.positive then similarity else -similarity
  (acc.1 ++ [weightedScore],
    if 7/20 < similarity then acc.2 ++ [mkMatchDetail sv paperVector] else acc.2)

/-- The rule-scoring block of `processPaperBatch` (App.tsx lines 901-917,
later revision): one pass over the rules collecting `ruleScores` and
`matches`, then `ruleScores.sort((a, b) => b - a)` descending and
`slice(0, 6).reduce(...) / 6`.  The guard `validSentenceVectors.length > 0`
of line 903 is the emptiness test; the document embedding is assumed present
(the `paperVector &&` half of the same guard is handled by the caller). -/
def scoreRules (validSentenceVectors : List SentenceVector) (paperVector : List ℚ) :
    ℚ × List MatchDetail :=
  if validSentenceVectors = [] then (0, [])
  else
    let scanned := validSentenceVectors.foldl (scanRule paperVector) ([], [])
    (((scanned.1.insertionSort fun x y => y ≤ x).take 6).sum / 6, scanned.2)

/-- The match records in rule-supply order, as a filter: exactly the rules
whose raw similarity exceeds the 0.35 floor. -/
def matchesOf (svs : List SentenceVector) (pv : List ℚ) : List MatchDetail :=
  (svs.filter fun sv => decide (7/20 < cosineSimilarity sv.vector pv)).map
    fun sv => mkMatchDetail sv pv

/-- `matches.slice(0, 3)` when the result record is built (App.tsx line 1039). -/
def resultMatches (matchList : List MatchDetail) : List MatchDetail :=
  matchList.take 3

/-! ## Basic branch lemmas for `processPaper` -/

lemma prefilterPass_iff (cfg : Config) (p : PaperInput) :
    prefilterPass cfg p = true ↔
      cfg.vecMin ≤ p.vectorScore ∨ cfg.compMin ≤ p.compositeScore := by
  simp [prefilterPass]

lemma processPaper_not_pass {cfg : Config} {p : PaperInput} (st : CycleState)
    (h : prefilterPass cfg p = false) :
    processPaper cfg st p = ⟨.FILTERED_OUT, st, none, true⟩ := by
  unfold processPaper
  rw [if_neg]
  simp [h]

lemma processPaper_failFast {cfg : Config} {st : CycleState} {p : PaperInput}
    (hp : prefilterPass cfg p = true) (hf : cfg.failFast = true)
    (hN : cfg.speedupSampleCount ≤ st.processedCount + 1)
    (hq : st.qualifiedCount = 0) :
    processPaper cfg st p =
      ⟨.SKIPPED_FAIL_FAST, ⟨st.processedCount + 1, st.qualifiedCount, true⟩,
        none, true⟩ := by
  unfold processPaper
  rw [if_pos hp, if_pos ⟨hf, hN, hq⟩]

lemma processPaper_speedup {cfg : Config} {st : CycleState} {p : PaperInput}
    (hp : prefilterPass cfg p = true)
    (hno : ¬(cfg.failFast = true ∧ cfg.speedupSampleCount ≤ st.processedCount + 1 ∧
        st.qualifiedCount = 0))
    (h1 : ¬ st.processedCount + 1 = 1)
    (h2 : targetQualifiedCount cfg ≤ (st.qualifiedCount : ℤ)) :
    processPaper cfg st p =
      ⟨.QUALIFIED_SPEEDUP,
        ⟨st.processedCount + 1, st.qualifiedCount + 1, st.failFastTriggered⟩,
        none, true⟩ := by
  unfold processPaper
  rw [if_pos hp, if_neg hno, if_pos ⟨h1, h2⟩]

lemma processPaper_judged {cfg : Config} {st : CycleState} {p : PaperInput}
    (hp : prefilterPass cfg p = true)
    (hno : ¬(cfg.failFast = true ∧ cfg.speedupSampleCount ≤ st.processedCount + 1 ∧
        st.qualifiedCount = 0))
    (hns : ¬(¬ st.processedCount + 1 = 1 ∧ targetQualifiedCount cfg ≤ (st.qualifiedCount : ℤ))) :
    processPaper cfg st p =
      if (resolveAiCall p.aiCall).qualified then
        ⟨.QUALIFIED, ⟨st.processedCount + 1, st.qualifiedCount + 1, st.failFastTriggered⟩,
          some (resolveAiCall p.aiCall), false⟩
      else
        ⟨.AI_REJECTED, ⟨st.processedCount + 1, st.qualifiedCount, st.failFastTriggered⟩,
          some (resolveAiCall p.aiCall), false⟩ := by
  unfold processPaper
  rw [if_pos hp, if_neg hno, if_neg hns]

/-! ## Claim theorems -/

/-- C3 (confirmed): a document whose vector score is below `vectorMin` and
whose composite score is below `compositeMin` gets outcome FILTERED_OUT and
leaves the cycle state unchanged: `processedCount` and `qualifiedCount` are
exactly what they were before the document. -/
theorem filteredOut_frame (cfg : Config) (st : CycleState) (p : PaperInput)
    (hv : p.vectorScore < cfg.vecMin) (hc : p.compositeScore < cfg.compMin) :
    (processPaper cfg st p).status = .FILTERED_OUT ∧
      (processPaper cfg st p).state = st := by
  have h : prefilterPass cfg p = false := by
    simp only [prefilterPass, Bool.or_eq_false_iff, decide_eq_false_iff_not]
    exact ⟨not_le.2 hv, not_le.2 hc⟩
  rw [processPaper_not_pass st h]
  exact ⟨rfl, rfl⟩

/-- Witness for C3 at a concrete input. -/
theorem filteredOut_frame_witness :
    (0 : ℚ) < 1/2 ∧
      (processPaper ⟨false, 10, 1/2, 1/2, 1/2⟩ ⟨2, 1, false⟩ ⟨0, 0, .error⟩).status =
        .FILTERED_OUT ∧
      (processPaper ⟨false, 10, 1/2, 1/2, 1/2⟩ ⟨2, 1, false⟩ ⟨0, 0, .error⟩).state =
        ⟨2, 1, false⟩ :=
  ⟨by norm_num,
    filteredOut_frame ⟨false, 10, 1/2, 1/2, 1/2⟩ ⟨2, 1, false⟩ ⟨0, 0, .error⟩
      (by norm_num) (by norm_num)⟩

/-- Evaluation helper for the speedup floor: when `N * R` is the integer `z ≥ 1`,
`targetQualifiedCount` is `z`. -/
lemma targetQualifiedCount_eq (cfg : Config) (z : ℤ)
    (h : (cfg.speedupSampleCount : ℚ) * cfg.speedupQualifyRate = (z : ℚ))
    (h1 : 1 ≤ z) : targetQualifiedCount cfg = z := by
  unfold targetQualifiedCount
  rw [h, Int.ceil_intCast]
  exact max_eq_right h1

lemma one_le_targetQualifiedCount (cfg : Config) : 1 ≤ targetQualifiedCount cfg :=
  le_max_left _ _

/-- The fast-path eligibility rule exactly as the specification words it
(spec §4.3 step 4, claim C1), over the post-increment counters: (a) not the
very first pre-filtered document, (b) `processedCount > N` or
`qualifiedCount > 0`, (c) `qualifiedCount / processedCount >= R`.  Stated
from the spec's words for comparison with the code's rule
(App.tsx lines 940-943). -/
def specFastPathEligible (cfg : Config) (processedCount qualifiedCount : ℕ) : Prop :=
  processedCount ≠ 1 ∧
    (cfg.speedupSampleCount < processedCount ∨ 0 < qualifiedCount) ∧
    cfg.speedupQualifyRate ≤ (qualifiedCount : ℚ) / (processedCount : ℚ)

/-- C1 (counterexample): with `N = 10`, `R = 0.5`, the sixth pre-filtered
document (post-increment `processedCount = 6`) arriving with
`qualifiedCount = 3` satisfies all three of the spec's eligibility
conditions, yet the engine does not grant the fast path: the document is
sent to the judgment oracle (`skippedAi = false`), because the code demands
`qualifiedCount >= max(1, ceil(N*R)) = 5`. -/
theorem fastPath_spec_counterexample :
    specFastPathEligible ⟨false, 10, 1/2, 1/2, 1/2⟩ 6 3 ∧
      prefilterPass ⟨false, 10, 1/2, 1/2, 1/2⟩ ⟨1, 0, .error⟩ = true ∧
      (⟨5, 3, false⟩ : CycleState).failFastTriggered = false ∧
      (processPaper ⟨false, 10, 1/2, 1/2, 1/2⟩ ⟨5, 3, false⟩ ⟨1, 0, .error⟩).status ≠
        .QUALIFIED_SPEEDUP ∧
      (processPaper ⟨false, 10, 1/2, 1/2, 1/2⟩ ⟨5, 3, false⟩ ⟨1, 0, .error⟩).skippedAi =
        false := by
  have hp : prefilterPass ⟨false, 10, 1/2, 1/2, 1/2⟩ ⟨1, 0, .error⟩ = true := by
    rw [prefilterPass_iff]
    left; norm_num
  have htgt : targetQualifiedCount ⟨false, 10, 1/2, 1/2, 1/2⟩ = 5 :=
    targetQualifiedCount_eq _ 5 (by norm_num) (by norm_num)
  have hj := @processPaper_judged ⟨false, 10, 1/2, 1/2, 1/2⟩
    ⟨5, 3, false⟩ ⟨1, 0, .error⟩ hp
    (by rintro ⟨h, -⟩; simp at h)
    (by rintro ⟨-, h2⟩; rw [htgt] at h2; exact absurd h2 (by decide))
  have hval : processPaper ⟨false, 10, 1/2, 1/2, 1/2⟩ ⟨5, 3, false⟩ ⟨1, 0, .error⟩ =
      ⟨.AI_REJECTED, ⟨6, 3, false⟩, some (resolveAiCall .error), false⟩ := by
    rw [hj]
    simp [resolveAiCall]
  refine ⟨⟨by norm_num, Or.inr (by norm_num), by norm_num⟩, hp, rfl, ?_, ?_⟩ <;>
    rw [hval] <;> simp

/-- C1 (amended, proved): for a pre-filtered document processed while
fail-fast has not triggered, the engine grants the fast path (outcome
QUALIFIED_SPEEDUP) exactly when the document is not the very first
pre-filtered document of the query and
`qualifiedCount >= max(1, ceil(N * R))`; neither the running yield nor
`processedCount > N` enters the decision.  When granted, no oracle call is
made (`skippedAi = true`, no analysis attached). -/
theorem fastPath_grant_iff (cfg : Config) (st : CycleState) (p : PaperInput)
    (hp : prefilterPass cfg p = true) (_hff : st.failFastTriggered = false) :
    ((processPaper cfg st p).status = .QUALIFIED_SPEEDUP ↔
      st.processedCount + 1 ≠ 1 ∧ targetQualifiedCount cfg ≤ (st.qualifiedCount : ℤ)) ∧
    ((processPaper cfg st p).status = .QUALIFIED_SPEEDUP →
      (processPaper cfg st p).skippedAi = true ∧
        (processPaper cfg st p).aiAnalysis = none) := by
  by_cases hfc : cfg.failFast = true ∧ cfg.speedupSampleCount ≤ st.processedCount + 1 ∧
      st.qualifiedCount = 0
  · rw [processPaper_failFast hp hfc.1 hfc.2.1 hfc.2.2]
    have h1 := one_le_targetQualifiedCount cfg
    constructor
    · constructor
      · intro h; exact absurd h (by simp)
      · rintro ⟨-, h2⟩
        rw [hfc.2.2] at h2
        omega
    · intro h; exact absurd h (by simp)
  · by_cases hsp : ¬ st.processedCount + 1 = 1 ∧ targetQualifiedCount cfg ≤ (st.qualifiedCount : ℤ)
    · rw [processPaper_speedup hp hfc hsp.1 hsp.2]
      exact ⟨by simpa using hsp, fun _ => ⟨rfl, rfl⟩⟩
    · rw [processPaper_judged hp hfc hsp]
      by_cases hq : (resolveAiCall p.aiCall).qualified
      · rw [if_pos hq]
        exact ⟨by simpa using hsp, by simp⟩
      · rw [if_neg hq]
        exact ⟨by simpa using hsp, by simp⟩

/-- Witness for C1's amended theorem at a concrete input: with `N = 10`,
`R = 0.5` and `qualifiedCount = 5` the sixth pre-filtered document is
fast-pathed. -/
theorem fastPath_grant_iff_witness :
    prefilterPass ⟨false, 10, 1/2, 1/2, 1/2⟩ ⟨1, 0, .error⟩ = true ∧
      (⟨5, 5, false⟩ : CycleState).failFastTriggered = false ∧
      (((processPaper ⟨false, 10, 1/2, 1/2, 1/2⟩ ⟨5, 5, false⟩ ⟨1, 0, .error⟩).status =
          .QUALIFIED_SPEEDUP ↔
        5 + 1 ≠ 1 ∧
          targetQualifiedCount ⟨false, 10, 1/2, 1/2, 1/2⟩ ≤ ((5 : ℕ) : ℤ)) ∧
      ((processPaper ⟨false, 10, 1/2, 1/2, 1/2⟩ ⟨5, 5, false⟩ ⟨1, 0, .error⟩).status =
          .QUALIFIED_SPEEDUP →
        (processPaper ⟨false, 10, 1/2, 1/2, 1/2⟩ ⟨5, 5, false⟩ ⟨1, 0, .error⟩).skippedAi =
            true ∧
          (processPaper ⟨false, 10, 1/2, 1/2, 1/2⟩ ⟨5, 5, false⟩ ⟨1, 0, .error⟩).aiAnalysis =
            none)) :=
  ⟨by rw [prefilterPass_iff]; left; norm_num, rfl,
    fastPath_grant_iff ⟨false, 10, 1/2, 1/2, 1/2⟩ ⟨5, 5, false⟩ ⟨1, 0, .error⟩
      (by rw [prefilterPass_iff]; left; norm_num) rfl⟩

/-- The condition under which every pre-filtered document is fast-pathed:
the query has seen at least one pre-filtered document and `qualifiedCount`
has reached the speedup floor.  Reaching a QUALIFIED_SPEEDUP outcome
establishes it, and `qualifiedCount` never decreases, so it persists. -/
def speedupLocked (cfg : Config) (st : CycleState) : Prop :=
  1 ≤ st.processedCount ∧ targetQualifiedCount cfg ≤ (st.qualifiedCount : ℤ)

lemma processPaper_cases (cfg : Config) (st : CycleState) (p : PaperInput) :
    (processPaper cfg st p).status = .FILTERED_OUT ∨
    (processPaper cfg st p).status = .SKIPPED_FAIL_FAST ∨
    (processPaper cfg st p).status = .QUALIFIED_SPEEDUP ∨
    (processPaper cfg st p).status = .QUALIFIED ∨
    (processPaper cfg st p).status = .AI_REJECTED := by
  unfold processPaper
  split_ifs <;> simp

lemma speedup_branch_of_status {cfg : Config} {st : CycleState} {p : PaperInput}
    (h : (processPaper cfg st p).status = .QUALIFIED_SPEEDUP) :
    prefilterPass cfg p = true ∧
      ¬(cfg.failFast = true ∧ cfg.speedupSampleCount ≤ st.processedCount + 1 ∧
          st.qualifiedCount = 0) ∧
      ¬ st.processedCount + 1 = 1 ∧ targetQualifiedCount cfg ≤ (st.qualifiedCount : ℤ) := by
  by_cases hp : prefilterPass cfg p = true
  · by_cases hfc : cfg.failFast = true ∧ cfg.speedupSampleCount ≤ st.processedCount + 1 ∧
        st.qualifiedCount = 0
    · rw [processPaper_failFast hp hfc.1 hfc.2.1 hfc.2.2] at h
      exact absurd h (by simp)
    · by_cases hsp : ¬ st.processedCount + 1 = 1 ∧
          targetQualifiedCount cfg ≤ (st.qualifiedCount : ℤ)
      · exact ⟨hp, hfc, hsp⟩
      · rw [processPaper_judged hp hfc hsp] at h
        by_cases hq : (resolveAiCall p.aiCall).qualified
        · rw [if_pos hq] at h; exact absurd h (by simp)
        · rw [if_neg hq] at h; exact absurd h (by simp)
  · rw [processPaper_not_pass st (by simpa using hp)] at h
    exact absurd h (by simp)

/-- While locked, one step fast-paths a passing document and filters a
non-passing one, in both cases staying locked with `failFastTriggered`
still clear. -/
lemma processPaper_locked_step {cfg : Config} {st : CycleState} (p : PaperInput)
    (hl : speedupLocked cfg st) (hff : st.failFastTriggered = false) :
    processPaper cfg st p =
      (if prefilterPass cfg p then
        ⟨.QUALIFIED_SPEEDUP, ⟨st.processedCount + 1, st.qualifiedCount + 1, false⟩,
          none, true⟩
      else ⟨.FILTERED_OUT, st, none, true⟩) ∧
      speedupLocked cfg (processPaper cfg st p).state ∧
      (processPaper cfg st p).state.failFastTriggered = false := by
  obtain ⟨h1, h2⟩ := hl
  have htgt := one_le_targetQualifiedCount cfg
  by_cases hp : prefilterPass cfg p = true
  · have hfc : ¬(cfg.failFast = true ∧ cfg.speedupSampleCount ≤ st.processedCount + 1 ∧
        st.qualifiedCount = 0) := by
      rintro ⟨-, -, hq0⟩
      rw [hq0] at h2
      omega
    have hstep := processPaper_speedup hp hfc (by omega) h2
    rw [hff] at hstep
    rw [hstep, if_pos hp]
    refine ⟨rfl, ⟨?_, ?_⟩, rfl⟩
    · show 1 ≤ st.processedCount + 1
      omega
    · show targetQualifiedCount cfg ≤ ((st.qualifiedCount + 1 : ℕ) : ℤ)
      push_cast
      omega
  · rw [processPaper_not_pass st (by simpa using hp), if_neg (by simpa using hp)]
    exact ⟨rfl, ⟨h1, h2⟩, hff⟩

lemma processPaperBatch_cons_no_trigger {cfg : Config} {st : CycleState} {p : PaperInput}
    (rest : List PaperInput) (hff : st.failFastTriggered = false)
    (hff' : (processPaper cfg st p).state.failFastTriggered = false) :
    processPaperBatch cfg st (p :: rest) =
      ⟨(processPaperBatch cfg (processPaper cfg st p).state rest).state,
        processPaper cfg st p ::
          (processPaperBatch cfg (processPaper cfg st p).state rest).results,
        (processPaperBatch cfg (processPaper cfg st p).state rest).shouldStop⟩ := by
  simp only [processPaperBatch, hff, hff', Bool.false_eq_true, if_false]

lemma processPaperBatch_cons_trigger {cfg : Config} {st : CycleState} {p : PaperInput}
    (rest : List PaperInput) (hff : st.failFastTriggered = false)
    (hff' : (processPaper cfg st p).state.failFastTriggered = true) :
    processPaperBatch cfg st (p :: rest) =
      ⟨(processPaper cfg st p).state, [processPaper cfg st p], true⟩ := by
  simp only [processPaperBatch, hff, hff', Bool.false_eq_true, if_false, if_true]

/-- The per-outcome view of a whole batch processed under lock. -/
lemma processPaperBatch_locked (cfg : Config) :
    ∀ (docs : List PaperInput) (st : CycleState),
      speedupLocked cfg st → st.failFastTriggered = false →
      ((processPaperBatch cfg st docs).results.map fun r =>
          (r.status, r.skippedAi, r.aiAnalysis)) =
        (docs.map fun p =>
          if prefilterPass cfg p then (Status.QUALIFIED_SPEEDUP, true, none)
          else (Status.FILTERED_OUT, true, (none : Option Analysis))) ∧
      (processPaperBatch cfg st docs).state.qualifiedCount =
        st.qualifiedCount + (docs.filter fun p => prefilterPass cfg p).length ∧
      (processPaperBatch cfg st docs).state.failFastTriggered = false ∧
      (processPaperBatch cfg st docs).shouldStop = false := by
  intro docs
  induction docs with
  | nil => intro st _ hff; simp [processPaperBatch, hff]
  | cons p rest ih =>
    intro st hl hff
    obtain ⟨hstep, hl', hff'⟩ := processPaper_locked_step p hl hff
    have hbatch := @processPaperBatch_cons_no_trigger cfg st p rest hff hff'
    obtain ⟨ihm, ihq, ihf, ihs⟩ := ih (processPaper cfg st p).state hl' hff'
    rw [hbatch]
    by_cases hp : prefilterPass cfg p = true
    · rw [hstep, if_pos hp] at ihm ihq ihf ihs ⊢
      refine ⟨?_, ?_, ihf, ihs⟩
      · simp only [List.map_cons, ihm, if_pos hp]
      · rw [ihq]
        simp [List.filter_cons, hp]
        omega
    · have hp' : prefilterPass cfg p = false := by simpa using hp
      rw [hstep, if_neg (by simp [hp'])] at ihm ihq ihf ihs ⊢
      refine ⟨?_, ?_, ihf, ihs⟩
      · simp only [List.map_cons, ihm, if_neg (by simp [hp'] : ¬ prefilterPass cfg p = true)]
      · rw [ihq]
        simp [List.filter_cons, hp']
/-- C4 (confirmed): reaching a QUALIFIED_SPEEDUP outcome puts the query into
the locked regime (`speedupLocked`) and increments `qualifiedCount`; and from
any locked, non-fail-fast state, every subsequent pre-filtered document of
the query receives QUALIFIED_SPEEDUP with no oracle invocation
(`skippedAi = true`, no analysis attached), `qualifiedCount` growing by one
per pre-filtered document, while non-pre-filtered documents are FILTERED_OUT. -/
theorem fastPath_persistence (cfg : Config) :
    (∀ (st : CycleState) (p : PaperInput),
        (processPaper cfg st p).status = .QUALIFIED_SPEEDUP →
        speedupLocked cfg (processPaper cfg st p).state ∧
          (processPaper cfg st p).state.qualifiedCount = st.qualifiedCount + 1) ∧
    (∀ (st : CycleState) (docs : List PaperInput),
        speedupLocked cfg st → st.failFastTriggered = false →
        ((processPaperBatch cfg st docs).results.map fun r =>
            (r.status, r.skippedAi, r.aiAnalysis)) =
          (docs.map fun p =>
            if prefilterPass cfg p then (Status.QUALIFIED_SPEEDUP, true, none)
            else (Status.FILTERED_OUT, true, (none : Option Analysis))) ∧
        (processPaperBatch cfg st docs).state.qualifiedCount =
          st.qualifiedCount + (docs.filter fun p => prefilterPass cfg p).length) := by
  constructor
  · intro st p h
    obtain ⟨hp, hfc, h1, h2⟩ := speedup_branch_of_status h
    rw [processPaper_speedup hp hfc h1 h2]
    refine ⟨⟨?_, ?_⟩, rfl⟩
    · show 1 ≤ st.processedCount + 1
      omega
    · show targetQualifiedCount cfg ≤ ((st.qualifiedCount + 1 : ℕ) : ℤ)
      push_cast
      omega
  · intro st docs hl hff
    obtain ⟨hm, hq, -, -⟩ := processPaperBatch_locked cfg docs st hl hff
    exact ⟨hm, hq⟩

/-- Witness for C4 at a concrete input: a locked state with
`qualifiedCount = 5` under `N = 10`, `R = 0.5`, fed one passing and one
non-passing document. -/
theorem fastPath_persistence_witness :
    speedupLocked ⟨false, 10, 1/2, 1/2, 1/2⟩ ⟨3, 5, false⟩ ∧
      (⟨3, 5, false⟩ : CycleState).failFastTriggered = false ∧
      ((processPaperBatch ⟨false, 10, 1/2, 1/2, 1/2⟩ ⟨3, 5, false⟩
          [⟨1, 0, .error⟩, ⟨0, 0, .error⟩]).results.map fun r =>
            (r.status, r.skippedAi, r.aiAnalysis)) =
        [(Status.QUALIFIED_SPEEDUP, true, none),
          (Status.FILTERED_OUT, true, (none : Option Analysis))] ∧
      (processPaperBatch ⟨false, 10, 1/2, 1/2, 1/2⟩ ⟨3, 5, false⟩
          [⟨1, 0, .error⟩, ⟨0, 0, .error⟩]).state.qualifiedCount = 6 := by
  have hl : speedupLocked ⟨false, 10, 1/2, 1/2, 1/2⟩ ⟨3, 5, false⟩ := by
    refine ⟨by show (1 : ℕ) ≤ 3; omega, ?_⟩
    show targetQualifiedCount ⟨false, 10, 1/2, 1/2, 1/2⟩ ≤ ((5 : ℕ) : ℤ)
    rw [targetQualifiedCount_eq _ 5 (by norm_num) (by norm_num)]
    norm_num
  have hpass1 : prefilterPass ⟨false, 10, 1/2, 1/2, 1/2⟩ ⟨1, 0, .error⟩ = true := by
    rw [prefilterPass_iff]; left; norm_num
  have hpass2 : prefilterPass ⟨false, 10, 1/2, 1/2, 1/2⟩ ⟨0, 0, .error⟩ = false := by
    simp only [prefilterPass, Bool.or_eq_false_iff, decide_eq_false_iff_not]
    constructor <;> norm_num
  have h := (fastPath_persistence ⟨false, 10, 1/2, 1/2, 1/2⟩).2 ⟨3, 5, false⟩
    [⟨1, 0, .error⟩, ⟨0, 0, .error⟩] hl rfl
  refine ⟨hl, rfl, ?_, ?_⟩
  · rw [h.1]
    simp only [List.map_cons, List.map_nil]
    rw [hpass1, hpass2]
    simp
  · rw [h.2]
    simp only [List.filter_cons, List.filter_nil]
    rw [hpass1, hpass2]
    simp

lemma runPages_cons_stop {cfg : Config} {st : CycleState} {page : List PaperInput}
    (rest : List (List PaperInput)) (hff : st.failFastTriggered = false)
    (hstop : (processPaperBatch cfg st page).shouldStop = true) :
    runPages cfg st (page :: rest) =
      ⟨(processPaperBatch cfg st page).state, (processPaperBatch cfg st page).results,
        true⟩ := by
  simp only [runPages, hff, Bool.false_eq_true, if_false, hstop, if_true]

/-- A query whose pre-filtered documents are all oracle-rejected reaches the
fail-fast trigger on the `N`-th of them: the batch stops, the state records
`processedCount = N`, `qualifiedCount = 0`, `failFastTriggered`, and the feed
holds `N - processedCount₀ - 1` AI_REJECTED records followed by the single
SKIPPED_FAIL_FAST record. -/
lemma failFast_batch (cfg : Config) (hff : cfg.failFast = true) :
    ∀ (docs : List PaperInput) (st : CycleState),
      st.failFastTriggered = false → st.qualifiedCount = 0 →
      (∀ p ∈ docs, prefilterPass cfg p = true ∧ (resolveAiCall p.aiCall).qualified = false) →
      cfg.speedupSampleCount ≤ st.processedCount + docs.length →
      st.processedCount + 1 ≤ cfg.speedupSampleCount →
      (processPaperBatch cfg st docs).state = ⟨cfg.speedupSampleCount, 0, true⟩ ∧
      (processPaperBatch cfg st docs).shouldStop = true ∧
      ((processPaperBatch cfg st docs).results.map fun r => (r.status, r.skippedAi)) =
        List.replicate (cfg.speedupSampleCount - st.processedCount - 1)
            (Status.AI_REJECTED, false) ++
          [(Status.SKIPPED_FAIL_FAST, true)] := by
  intro docs
  induction docs with
  | nil =>
    intro st hsf hq hall hlen hlt
    simp only [List.length_nil, Nat.add_zero] at hlen
    exact absurd hlen (by omega)
  | cons p rest ih =>
    intro st hsf hq hall hlen hlt
    have hp := (hall p (List.mem_cons_self p rest)).1
    have hnq := (hall p (List.mem_cons_self p rest)).2
    simp only [List.length_cons] at hlen
    by_cases htrig : cfg.speedupSampleCount ≤ st.processedCount + 1
    · have hstep : processPaper cfg st p =
          ⟨.SKIPPED_FAIL_FAST, ⟨st.processedCount + 1, 0, true⟩, none, true⟩ := by
        rw [processPaper_failFast hp hff htrig hq, hq]
      have hst' : (processPaper cfg st p).state.failFastTriggered = true := by
        rw [hstep]
      rw [processPaperBatch_cons_trigger rest hsf hst', hstep]
      have hNval : cfg.speedupSampleCount = st.processedCount + 1 := by omega
      refine ⟨by rw [hNval], rfl, ?_⟩
      rw [show cfg.speedupSampleCount - st.processedCount - 1 = 0 by omega]
      simp
    · have hfc : ¬(cfg.failFast = true ∧
          cfg.speedupSampleCount ≤ st.processedCount + 1 ∧ st.qualifiedCount = 0) := by
        rintro ⟨-, hle, -⟩
        exact htrig hle
      have hns : ¬(¬ st.processedCount + 1 = 1 ∧
          targetQualifiedCount cfg ≤ (st.qualifiedCount : ℤ)) := by
        rintro ⟨-, h2⟩
        rw [hq] at h2
        simp only [Nat.cast_zero] at h2
        have := one_le_targetQualifiedCount cfg
        omega
      have hstep : processPaper cfg st p =
          ⟨.AI_REJECTED, ⟨st.processedCount + 1, 0, false⟩,
            some (resolveAiCall p.aiCall), false⟩ := by
        rw [processPaper_judged hp hfc hns, if_neg (by simp [hnq]), hq, hsf]
      have hff' : (processPaper cfg st p).state.failFastTriggered = false := by
        rw [hstep]
      have hcons := @processPaperBatch_cons_no_trigger cfg st p rest hsf hff'
      rw [hstep] at hcons
      dsimp only at hcons
      rw [hcons]
      dsimp only
      obtain ⟨ih1, ih2, ih3⟩ := ih ⟨st.processedCount + 1, 0, false⟩ rfl rfl
        (fun q hqmem => hall q (List.mem_cons_of_mem p hqmem))
        (by show cfg.speedupSampleCount ≤ st.processedCount + 1 + rest.length; omega)
        (by show st.processedCount + 1 + 1 ≤ cfg.speedupSampleCount; omega)
      refine ⟨ih1, ih2, ?_⟩
      simp only [List.map_cons, ih3]
      rw [show cfg.speedupSampleCount - st.processedCount - 1 =
            (cfg.speedupSampleCount - (st.processedCount + 1) - 1) + 1 by omega,
        List.replicate_succ]
      rfl

/-- C2 (confirmed): with fail-fast enabled, a pre-filtered document reaching
`processedCount >= N` with `qualifiedCount = 0` sets `failFastTriggered` and
receives SKIPPED_FAIL_FAST (the code's ABORTED_LOW_YIELD) with no oracle
call; and for a query of all-pre-filtered, all-oracle-rejected documents
with at least `N` of them on the first page, the run stops with exactly `N`
result records — `N - 1` AI_REJECTED then the SKIPPED_FAIL_FAST — no
document after the `N`-th is judged or fast-pathed, and no later page is
processed. -/
theorem failFast_abort (cfg : Config) (hff : cfg.failFast = true)
    (hN : 1 ≤ cfg.speedupSampleCount) :
    (∀ (st : CycleState) (p : PaperInput),
        prefilterPass cfg p = true → st.failFastTriggered = false →
        st.qualifiedCount = 0 → cfg.speedupSampleCount ≤ st.processedCount + 1 →
        processPaper cfg st p =
          ⟨.SKIPPED_FAIL_FAST, ⟨st.processedCount + 1, 0, true⟩, none, true⟩) ∧
    (∀ (docs : List PaperInput) (rest : List (List PaperInput)),
        (∀ p ∈ docs, prefilterPass cfg p = true ∧
          (resolveAiCall p.aiCall).qualified = false) →
        cfg.speedupSampleCount ≤ docs.length →
        (runPages cfg initialCycleState (docs :: rest)).state =
            ⟨cfg.speedupSampleCount, 0, true⟩ ∧
          (runPages cfg initialCycleState (docs :: rest)).shouldStop = true ∧
          ((runPages cfg initialCycleState (docs :: rest)).results.map fun r =>
              (r.status, r.skippedAi)) =
            List.replicate (cfg.speedupSampleCount - 1) (Status.AI_REJECTED, false) ++
              [(Status.SKIPPED_FAIL_FAST, true)]) := by
  constructor
  · intro st p hp hsf hq hle
    rw [processPaper_failFast hp hff hle hq, hq]
  · intro docs rest hall hlen
    obtain ⟨h1, h2, h3⟩ := failFast_batch cfg hff docs initialCycleState rfl rfl hall
      (by show cfg.speedupSampleCount ≤ 0 + docs.length; omega)
      (by show 0 + 1 ≤ cfg.speedupSampleCount; omega)
    rw [runPages_cons_stop rest rfl h2]
    exact ⟨h1, rfl, h3⟩

/-- Witness for C2 at the spec's own instance: `N = 10`, fail-fast enabled,
ten consecutive pre-filtered oracle-rejected documents. -/
theorem failFast_abort_witness :
    (⟨true, 10, 1/2, 1/2, 1/2⟩ : Config).failFast = true ∧
      1 ≤ (⟨true, 10, 1/2, 1/2, 1/2⟩ : Config).speedupSampleCount ∧
      (∀ p ∈ List.replicate 10 (⟨1, 0, .error⟩ : PaperInput),
        prefilterPass ⟨true, 10, 1/2, 1/2, 1/2⟩ p = true ∧
          (resolveAiCall p.aiCall).qualified = false) ∧
      (runPages ⟨true, 10, 1/2, 1/2, 1/2⟩ initialCycleState
          [List.replicate 10 ⟨1, 0, .error⟩, [⟨1, 0, .error⟩]]).state =
        ⟨10, 0, true⟩ ∧
      (runPages ⟨true, 10, 1/2, 1/2, 1/2⟩ initialCycleState
          [List.replicate 10 ⟨1, 0, .error⟩, [⟨1, 0, .error⟩]]).shouldStop = true ∧
      ((runPages ⟨true, 10, 1/2, 1/2, 1/2⟩ initialCycleState
          [List.replicate 10 ⟨1, 0, .error⟩, [⟨1, 0, .error⟩]]).results.map fun r =>
            (r.status, r.skippedAi)) =
        List.replicate (10 - 1) (Status.AI_REJECTED, false) ++
          [(Status.SKIPPED_FAIL_FAST, true)] := by
  have hall : ∀ p ∈ List.replicate 10 (⟨1, 0, .error⟩ : PaperInput),
      prefilterPass ⟨true, 10, 1/2, 1/2, 1/2⟩ p = true ∧
        (resolveAiCall p.aiCall).qualified = false := by
    intro p hmem
    rw [List.eq_of_mem_replicate hmem]
    exact ⟨by rw [prefilterPass_iff]; left; norm_num, rfl⟩
  obtain ⟨h1, h2, h3⟩ := (failFast_abort ⟨true, 10, 1/2, 1/2, 1/2⟩ rfl (by norm_num)).2
    (List.replicate 10 ⟨1, 0, .error⟩) [[⟨1, 0, .error⟩]] hall
    (by rw [List.length_replicate])
  exact ⟨rfl, by norm_num, hall, h1, h2, h3⟩

/-- C5 (counterexample): an oracle response with `qualified = false`,
`score = 0`, `probability = 9` satisfies the claimed qualification
condition (probability ≥ 5), yet the pipeline — `analyzePaper` in
`src/services/ollamaService.ts` followed by the judgment branch of
`processPaperBatch` — rejects the document: the code tests
`qualified || score >= 6` and never consults `probability`. -/
theorem judgment_decision_counterexample :
    ((⟨false, some 0, some 9, "s"⟩ : OracleJson).qualified = true ∨
        5 ≤ (⟨false, some 0, some 9, "s"⟩ : OracleJson).score.getD 0 ∨
        5 ≤ (⟨false, some 0, some 9, "s"⟩ : OracleJson).probability.getD 0) ∧
      (processPaper ⟨false, 10, 1/2, 1/2, 1/2⟩ ⟨0, 0, false⟩
          ⟨1, 0, .success
            (analyzePaper ⟨false, some 0, some 9, "s"⟩ (Except.error ())).1⟩).status =
        .AI_REJECTED := by
  have hp : prefilterPass ⟨false, 10, 1/2, 1/2, 1/2⟩
      ⟨1, 0, .success (analyzePaper ⟨false, some 0, some 9, "s"⟩ (Except.error ())).1⟩ =
      true := by
    rw [prefilterPass_iff]; left; norm_num
  have hstep := @processPaper_judged ⟨false, 10, 1/2, 1/2, 1/2⟩
    ⟨0, 0, false⟩
    ⟨1, 0, .success (analyzePaper ⟨false, some 0, some 9, "s"⟩ (Except.error ())).1⟩
    hp (by rintro ⟨h, -⟩; simp at h) (by rintro ⟨h1, -⟩; exact h1 rfl)
  have hretry : retryOnZeroProbability ⟨false, some 0, some 9, "s"⟩ (Except.error ()) =
      (⟨false, some 0, some 9, "s"⟩, 1) := by
    unfold retryOnZeroProbability
    rw [if_neg]
    intro h
    rw [show (⟨false, some 0, some 9, "s"⟩ : OracleJson).probability =
      some (9 : ℚ) from rfl] at h
    rw [Option.some_inj] at h
    norm_num at h
  have hq1 : (analyzePaper ⟨false, some 0, some 9, "s"⟩ (Except.error ())).1 =
      finalizeAnalysis ⟨false, some 0, some 9, "s"⟩ := by
    show finalizeAnalysis
      (retryOnZeroProbability ⟨false, some 0, some 9, "s"⟩ (Except.error ())).1 = _
    rw [hretry]
  have hqual : (resolveAiCall
      (⟨1, 0, .success (analyzePaper ⟨false, some 0, some 9, "s"⟩ (Except.error ())).1⟩ :
        PaperInput).aiCall).qualified = false := by
    show ((analyzePaper ⟨false, some 0, some 9, "s"⟩ (Except.error ())).1).qualified = false
    rw [hq1]
    show ((false : Bool) || decide ((6 : ℚ) ≤ 0)) = false
    rw [Bool.false_or]
    exact decide_eq_false (by norm_num)
  rw [hstep, if_neg (by simp [hqual])]
  exact ⟨Or.inr (Or.inr (by show (5 : ℚ) ≤ 9; norm_num)), rfl⟩

/-- C5 (amended, proved): for a document reaching the judgment branch with
oracle response `json`, the outcome is QUALIFIED exactly when
`json.qualified` is true or `json.score >= 6`; the probability field is not
consulted, and otherwise the outcome is AI_REJECTED. -/
theorem judgment_decision_iff (cfg : Config) (st : CycleState) (json : OracleJson)
    (vs cs : ℚ)
    (hp : prefilterPass cfg ⟨vs, cs, .success (finalizeAnalysis json)⟩ = true)
    (hfc : ¬(cfg.failFast = true ∧ cfg.speedupSampleCount ≤ st.processedCount + 1 ∧
        st.qualifiedCount = 0))
    (hns : ¬(¬ st.processedCount + 1 = 1 ∧
        targetQualifiedCount cfg ≤ (st.qualifiedCount : ℤ))) :
    ((processPaper cfg st ⟨vs, cs, .success (finalizeAnalysis json)⟩).status =
        .QUALIFIED ↔ json.qualified = true ∨ 6 ≤ json.score.getD 0) ∧
    ((processPaper cfg st ⟨vs, cs, .success (finalizeAnalysis json)⟩).status =
        .QUALIFIED ∨
      (processPaper cfg st ⟨vs, cs, .success (finalizeAnalysis json)⟩).status =
        .AI_REJECTED) := by
  have hbool : (resolveAiCall
      (⟨vs, cs, .success (finalizeAnalysis json)⟩ : PaperInput).aiCall).qualified = true ↔
      (json.qualified = true ∨ 6 ≤ json.score.getD 0) := by
    show (json.qualified || decide (6 ≤ json.score.getD 0)) = true ↔ _
    simp only [Bool.or_eq_true, decide_eq_true_eq]
  rw [processPaper_judged hp hfc hns]
  by_cases hq : (resolveAiCall
      (⟨vs, cs, .success (finalizeAnalysis json)⟩ : PaperInput).aiCall).qualified = true
  · rw [if_pos hq]
    exact ⟨iff_of_true rfl (hbool.mp hq), Or.inl rfl⟩
  · rw [if_neg hq]
    exact ⟨iff_of_false (by simp) (fun h => hq (hbool.mpr h)), Or.inr rfl⟩

/-- Witness for C5's amended theorem: a response with `qualified = false`
but `score = 7` qualifies the document. -/
theorem judgment_decision_iff_witness :
    prefilterPass ⟨false, 10, 1/2, 1/2, 1/2⟩
        ⟨1, 0, .success (finalizeAnalysis ⟨false, some 7, some 0, "s"⟩)⟩ = true ∧
      ((processPaper ⟨false, 10, 1/2, 1/2, 1/2⟩ ⟨0, 0, false⟩
            ⟨1, 0, .success (finalizeAnalysis ⟨false, some 7, some 0, "s"⟩)⟩).status =
          .QUALIFIED ↔
        (⟨false, some 7, some 0, "s"⟩ : OracleJson).qualified = true ∨
          6 ≤ (⟨false, some 7, some 0, "s"⟩ : OracleJson).score.getD 0) ∧
      (processPaper ⟨false, 10, 1/2, 1/2, 1/2⟩ ⟨0, 0, false⟩
          ⟨1, 0, .success (finalizeAnalysis ⟨false, some 7, some 0, "s"⟩)⟩).status =
        .QUALIFIED := by
  have hp : prefilterPass ⟨false, 10, 1/2, 1/2, 1/2⟩
      ⟨1, 0, .success (finalizeAnalysis ⟨false, some 7, some 0, "s"⟩)⟩ = true := by
    rw [prefilterPass_iff]; left; norm_num
  have h := judgment_decision_iff ⟨false, 10, 1/2, 1/2, 1/2⟩ ⟨0, 0, false⟩
    ⟨false, some 7, some 0, "s"⟩ 1 0 hp
    (by rintro ⟨h, -⟩; simp at h) (by rintro ⟨h1, -⟩; exact h1 rfl)
  exact ⟨hp, h.1, h.1.mpr (Or.inr (by show (6 : ℚ) ≤ 7; norm_num))⟩

/-- C7 (confirmed): when the judgment call of a document that reached the
judgment branch fails (raced error or the 70-second timeout), the document's
outcome is AI_REJECTED carrying the diagnostic analysis record (non-empty
summary tag), `failFastTriggered` is not set by the failure, and the batch
loop appends the document's result and continues with the remaining
documents. -/
theorem oracle_failure_nonfatal (cfg : Config) (st : CycleState) (vs cs : ℚ)
    (call : AiCallResult) (hcall : call = .error ∨ call = .timeout)
    (hsf : st.failFastTriggered = false)
    (hp : prefilterPass cfg ⟨vs, cs, call⟩ = true)
    (hfc : ¬(cfg.failFast = true ∧ cfg.speedupSampleCount ≤ st.processedCount + 1 ∧
        st.qualifiedCount = 0))
    (hns : ¬(¬ st.processedCount + 1 = 1 ∧
        targetQualifiedCount cfg ≤ (st.qualifiedCount : ℤ))) :
    (processPaper cfg st ⟨vs, cs, call⟩).status = .AI_REJECTED ∧
      (processPaper cfg st ⟨vs, cs, call⟩).skippedAi = false ∧
      (processPaper cfg st ⟨vs, cs, call⟩).aiAnalysis = some (resolveAiCall call) ∧
      (resolveAiCall call).summary ≠ "" ∧
      (processPaper cfg st ⟨vs, cs, call⟩).state.failFastTriggered = false ∧
      ∀ rest : List PaperInput,
        processPaperBatch cfg st (⟨vs, cs, call⟩ :: rest) =
          ⟨(processPaperBatch cfg (processPaper cfg st ⟨vs, cs, call⟩).state rest).state,
            processPaper cfg st ⟨vs, cs, call⟩ ::
              (processPaperBatch cfg (processPaper cfg st ⟨vs, cs, call⟩).state rest).results,
            (processPaperBatch cfg
              (processPaper cfg st ⟨vs, cs, call⟩).state rest).shouldStop⟩ := by
  have hnq : (resolveAiCall call).qualified = false := by
    rcases hcall with h | h <;> subst h <;> rfl
  have hstep : processPaper cfg st ⟨vs, cs, call⟩ =
      ⟨.AI_REJECTED, ⟨st.processedCount + 1, st.qualifiedCount, st.failFastTriggered⟩,
        some (resolveAiCall call), false⟩ := by
    rw [processPaper_judged hp hfc hns, if_neg (by simp [hnq])]
  have hff' : (processPaper cfg st ⟨vs, cs, call⟩).state.failFastTriggered = false := by
    rw [hstep]
    exact hsf
  refine ⟨by rw [hstep], by rw [hstep], by rw [hstep], ?_, hff',
    fun rest => processPaperBatch_cons_no_trigger rest hsf hff'⟩
  rcases hcall with h | h <;> subst h <;> simp [resolveAiCall]

/-- Witness for C7: a timeout on the first pre-filtered document of a fresh
query, followed by one more document. -/
theorem oracle_failure_nonfatal_witness :
    ((AiCallResult.timeout = AiCallResult.error ∨
        AiCallResult.timeout = AiCallResult.timeout) ∧
      prefilterPass ⟨false, 10, 1/2, 1/2, 1/2⟩ ⟨1, 0, .timeout⟩ = true) ∧
      (processPaper ⟨false, 10, 1/2, 1/2, 1/2⟩ ⟨0, 0, false⟩ ⟨1, 0, .timeout⟩).status =
        .AI_REJECTED ∧
      (processPaper ⟨false, 10, 1/2, 1/2, 1/2⟩ ⟨0, 0, false⟩ ⟨1, 0, .timeout⟩).aiAnalysis =
        some (resolveAiCall .timeout) ∧
      (resolveAiCall AiCallResult.timeout).summary ≠ "" ∧
      (processPaper ⟨false, 10, 1/2, 1/2, 1/2⟩ ⟨0, 0, false⟩
          ⟨1, 0, .timeout⟩).state.failFastTriggered = false ∧
      processPaperBatch ⟨false, 10, 1/2, 1/2, 1/2⟩ ⟨0, 0, false⟩
          [⟨1, 0, .timeout⟩, ⟨0, 0, .error⟩] =
        ⟨(processPaperBatch ⟨false, 10, 1/2, 1/2, 1/2⟩
            (processPaper ⟨false, 10, 1/2, 1/2, 1/2⟩ ⟨0, 0, false⟩ ⟨1, 0, .timeout⟩).state
            [⟨0, 0, .error⟩]).state,
          processPaper ⟨false, 10, 1/2, 1/2, 1/2⟩ ⟨0, 0, false⟩ ⟨1, 0, .timeout⟩ ::
            (processPaperBatch ⟨false, 10, 1/2, 1/2, 1/2⟩
              (processPaper ⟨false, 10, 1/2, 1/2, 1/2⟩ ⟨0, 0, false⟩
                ⟨1, 0, .timeout⟩).state [⟨0, 0, .error⟩]).results,
          (processPaperBatch ⟨false, 10, 1/2, 1/2, 1/2⟩
            (processPaper ⟨false, 10, 1/2, 1/2, 1/2⟩ ⟨0, 0, false⟩
              ⟨1, 0, .timeout⟩).state [⟨0, 0, .error⟩]).shouldStop⟩ := by
  have hp : prefilterPass ⟨false, 10, 1/2, 1/2, 1/2⟩ ⟨1, 0, .timeout⟩ = true := by
    rw [prefilterPass_iff]; left; norm_num
  have h := oracle_failure_nonfatal ⟨false, 10, 1/2, 1/2, 1/2⟩ ⟨0, 0, false⟩ 1 0
    .timeout (Or.inr rfl) rfl hp
    (by rintro ⟨h, -⟩; simp at h) (by rintro ⟨h1, -⟩; exact h1 rfl)
  exact ⟨⟨Or.inr rfl, hp⟩, h.1, h.2.2.1, h.2.2.2.1, h.2.2.2.2.1,
    h.2.2.2.2.2 [⟨0, 0, .error⟩]⟩

/-- C8 (confirmed): a first oracle response with probability exactly 0
triggers exactly one corrective re-query (two inferences in total, never
more); the retry's result replaces the original only when its probability
is greater than 0; a second zero-or-less probability, an absent probability
field, or a failed re-query leaves the original result final; and a first
response with nonzero (or absent) probability is final after one inference. -/
theorem retry_policy (first : OracleJson) (retry : Except Unit OracleJson) :
    ((retryOnZeroProbability first retry).2 = 2 ↔ first.probability = some 0) ∧
      (retryOnZeroProbability first retry).2 ≤ 2 ∧
      (first.probability ≠ some 0 → retryOnZeroProbability first retry = (first, 1)) ∧
      (first.probability = some 0 →
        (∀ r, retry = .ok r →
          (0 < r.probability.getD 0 → (retryOnZeroProbability first retry).1 = r) ∧
          (r.probability.getD 0 ≤ 0 → (retryOnZeroProbability first retry).1 = first)) ∧
        (∀ e, retry = .error e → (retryOnZeroProbability first retry).1 = first)) := by
  unfold retryOnZeroProbability
  by_cases h0 : first.probability = some 0
  · rw [if_pos h0]
    cases retry with
    | ok r =>
      dsimp only
      by_cases hpr : 0 < r.probability.getD 0
      · rw [if_pos hpr]
        refine ⟨by simp [h0], by norm_num, fun hne => absurd h0 hne, fun _ => ⟨?_, ?_⟩⟩
        · intro r' hr'
          rw [Except.ok.injEq] at hr'
          subst hr'
          exact ⟨fun _ => rfl, fun hle => absurd hpr (not_lt.2 hle)⟩
        · intro e' he'
          cases he'
      · rw [if_neg hpr]
        refine ⟨by simp [h0], by norm_num, fun hne => absurd h0 hne, fun _ => ⟨?_, ?_⟩⟩
        · intro r' hr'
          rw [Except.ok.injEq] at hr'
          subst hr'
          exact ⟨fun hlt => absurd hlt hpr, fun _ => rfl⟩
        · intro e' he'
          cases he'
    | error e =>
      dsimp only
      refine ⟨by simp [h0], by norm_num, fun hne => absurd h0 hne,
        fun _ => ⟨?_, fun e' _ => rfl⟩⟩
      intro r hr
      cases hr
  · rw [if_neg h0]
    exact ⟨by simp [h0], by norm_num, fun _ => rfl, fun h => absurd h h0⟩

/-- Witness for C8: a zero-probability first response corrected by a retry
with probability 6, and a nonzero first response issuing no retry. -/
theorem retry_policy_witness :
    ((retryOnZeroProbability ⟨false, some 1, some 0, "a"⟩
        (Except.ok ⟨false, some 1, some 6, "b"⟩)).2 = 2 ↔
      (⟨false, some 1, some 0, "a"⟩ : OracleJson).probability = some 0) ∧
      ((⟨false, some 1, some 0, "a"⟩ : OracleJson).probability = some 0 →
        0 < ((⟨false, some 1, some 6, "b"⟩ : OracleJson).probability.getD 0) →
        (retryOnZeroProbability ⟨false, some 1, some 0, "a"⟩
            (Except.ok ⟨false, some 1, some 6, "b"⟩)).1 =
          ⟨false, some 1, some 6, "b"⟩) ∧
      ((⟨false, some 1, some 9, "c"⟩ : OracleJson).probability ≠ some 0 →
        retryOnZeroProbability ⟨false, some 1, some 9, "c"⟩ (Except.error ()) =
          (⟨false, some 1, some 9, "c"⟩, 1)) := by
  refine ⟨(retry_policy ⟨false, some 1, some 0, "a"⟩
      (Except.ok ⟨false, some 1, some 6, "b"⟩)).1, fun h0 hpr => ?_, fun hne => ?_⟩
  · exact (((retry_policy ⟨false, some 1, some 0, "a"⟩
      (Except.ok ⟨false, some 1, some 6, "b"⟩)).2.2.2 h0).1
        ⟨false, some 1, some 6, "b"⟩ rfl).1 hpr
  · exact (retry_policy ⟨false, some 1, some 9, "c"⟩ (Except.error ())).2.2.1 hne

/-- C9 (counterexample): the oracle post-processing of
`src/services/ollamaService.ts` does not clamp the probability into
`[0, 10]` (a returned 15 is exposed as 15) and does not rescale a score in
`(0, 1]` (a returned 0.5 is exposed as 0.5, not 5). -/
theorem clamp_counterexample :
    ¬ ((finalizeAnalysis ⟨false, some (1/2), some 15, ""⟩).probability ≤ 10) ∧
      (finalizeAnalysis ⟨false, some (1/2), some 15, ""⟩).score ≠ 5 ∧
      (finalizeAnalysis ⟨false, some (1/2), some 15, ""⟩).score = 1/2 ∧
      (finalizeAnalysis ⟨false, some (1/2), some 15, ""⟩).probability = 15 := by
  have hs : (finalizeAnalysis ⟨false, some (1/2), some 15, ""⟩).score = 1/2 := by
    show min ((1 : ℚ)/2) 10 = 1/2
    exact min_eq_left (by norm_num)
  have hpp : (finalizeAnalysis ⟨false, some (1/2), some 15, ""⟩).probability = 15 := rfl
  exact ⟨by rw [hpp]; norm_num, by rw [hs]; norm_num, hs, hpp⟩

/-- C9 (amended, proved): the exposed score is `min(score, 10)` — capped
above at 10, no clamp below 0, and a value at most 10 (fractional values in
`(0, 1]` included) passes through without rescaling; the exposed probability
is the oracle's probability (absent read as 0) with no clamping or rescaling
at all. -/
theorem clamp_amended (json : OracleJson) :
    (finalizeAnalysis json).score ≤ 10 ∧
      (json.score.getD 0 ≤ 10 → (finalizeAnalysis json).score = json.score.getD 0) ∧
      (finalizeAnalysis json).probability = json.probability.getD 0 := by
  exact ⟨min_le_right _ _, fun h => min_eq_left h, rfl⟩

/-- Witness for C9's amended theorem: score 0.5 and probability 15 pass
through unchanged. -/
theorem clamp_amended_witness :
    (⟨false, some (1/2), some 15, ""⟩ : OracleJson).score.getD 0 ≤ 10 ∧
      (finalizeAnalysis ⟨false, some (1/2), some 15, ""⟩).score =
        (⟨false, some (1/2), some 15, ""⟩ : OracleJson).score.getD 0 ∧
      (finalizeAnalysis ⟨false, some (1/2), some 15, ""⟩).probability =
        (⟨false, some (1/2), some 15, ""⟩ : OracleJson).probability.getD 0 :=
  ⟨by show (1 : ℚ)/2 ≤ 10; norm_num,
    (clamp_amended ⟨false, some (1/2), some 15, ""⟩).2.1
      (by show (1 : ℚ)/2 ≤ 10; norm_num),
    (clamp_amended ⟨false, some (1/2), some 15, ""⟩).2.2⟩

/-! ## Rule-scorer lemmas -/

lemma foldl_scanRule (pv : List ℚ) :
    ∀ (svs : List SentenceVector) (acc : List ℚ × List MatchDetail),
      svs.foldl (scanRule pv) acc =
        (acc.1 ++ signedContributions svs pv, acc.2 ++ matchesOf svs pv) := by
  intro svs
  induction svs with
  | nil =>
    intro acc
    simp [signedContributions, matchesOf]
  | cons sv rest ih =>
    intro acc
    rw [List.foldl_cons, ih]
    by_cases h : 7/20 < cosineSimilarity sv.vector pv
    · simp only [scanRule, signedContributions, matchesOf, List.map_cons, List.filter_cons,
        if_pos h, decide_eq_true h, if_true, List.append_assoc, List.singleton_append,
        List.map]
    · simp only [scanRule, signedContributions, matchesOf, List.map_cons, List.filter_cons,
        if_neg h, decide_eq_false h, Bool.false_eq_true, if_false, List.append_assoc,
        List.singleton_append, List.map]

lemma scoreRules_fst (svs : List SentenceVector) (pv : List ℚ) :
    (scoreRules svs pv).1 =
      (((signedContributions svs pv).insertionSort fun x y => y ≤ x).take 6).sum / 6 := by
  by_cases h : svs = []
  · subst h
    simp [scoreRules, signedContributions, List.insertionSort]
  · unfold scoreRules
    rw [if_neg h, foldl_scanRule]
    simp

lemma scoreRules_snd (svs : List SentenceVector) (pv : List ℚ) :
    (scoreRules svs pv).2 = matchesOf svs pv := by
  by_cases h : svs = []
  · subst h
    simp [scoreRules, matchesOf]
  · unfold scoreRules
    rw [if_neg h, foldl_scanRule]
    simp

lemma ratSqrt_of_sq (q : ℚ) (h : 0 ≤ q) : Rat.sqrt (q * q) = q := by
  rw [Rat.sqrt_eq, abs_of_nonneg h]

lemma cosineSimilarity_eval (a b : List ℚ) (dAB dAA dBB sA sB : ℚ)
    (hAB : (List.zipWith (fun x y => x * y) a b).sum = dAB)
    (hAA : (List.zipWith (fun x y => x * y) a a).sum = dAA)
    (hBB : (List.zipWith (fun x y => x * y) b b).sum = dBB)
    (hsA : Rat.sqrt dAA = sA) (hsB : Rat.sqrt dBB = sB)
    (hane : a ≠ []) (hbne : b ≠ []) (hsA0 : sA ≠ 0) (hsB0 : sB ≠ 0) :
    cosineSimilarity a b = dAB / (sA * sB) := by
  unfold cosineSimilarity
  rw [hAB, hAA, hBB, hsA, hsB, if_neg]
  push_neg
  exact ⟨hane, hbne, hsA0, hsB0⟩

lemma cosine_34 : cosineSimilarity [3, 4] [1, 0] = 3/5 := by
  rw [cosineSimilarity_eval [3, 4] [1, 0] 3 25 1 5 1
    (by norm_num [List.zipWith_cons_cons])
    (by norm_num [List.zipWith_cons_cons])
    (by norm_num [List.zipWith_cons_cons])
    (by rw [show (25 : ℚ) = 5 * 5 by norm_num]; exact ratSqrt_of_sq 5 (by norm_num))
    (by nth_rewrite 1 [show (1 : ℚ) = 1 * 1 by norm_num]
        exact ratSqrt_of_sq 1 (by norm_num))
    (by simp) (by simp) (by norm_num) (by norm_num)]
  norm_num

lemma cosine_43 : cosineSimilarity [4, 3] [1, 0] = 4/5 := by
  rw [cosineSimilarity_eval [4, 3] [1, 0] 4 25 1 5 1
    (by norm_num [List.zipWith_cons_cons])
    (by norm_num [List.zipWith_cons_cons])
    (by norm_num [List.zipWith_cons_cons])
    (by rw [show (25 : ℚ) = 5 * 5 by norm_num]; exact ratSqrt_of_sq 5 (by norm_num))
    (by nth_rewrite 1 [show (1 : ℚ) = 1 * 1 by norm_num]
        exact ratSqrt_of_sq 1 (by norm_num))
    (by simp) (by simp) (by norm_num) (by norm_num)]
  norm_num

/-- C6 (counterexample): with a single rule of raw similarity 0.6 (vector
`[3,4]` against document `[1,0]`), the code's composite score is
`0.6 / 6 = 0.1`, not the claimed "average of all of them when fewer than 6
rules exist" (which would be 0.6): the divisor is always 6. -/
theorem compositeScore_counterexample :
    signedContributions [⟨"a", "t", "g", true, [3, 4]⟩] [1, 0] = [3/5] ∧
      (scoreRules [⟨"a", "t", "g", true, [3, 4]⟩] [1, 0]).1 = 1/10 ∧
      (scoreRules [⟨"a", "t", "g", true, [3, 4]⟩] [1, 0]).1 ≠
        (signedContributions [⟨"a", "t", "g", true, [3, 4]⟩] [1, 0]).sum /
          ((signedContributions [⟨"a", "t", "g", true, [3, 4]⟩] [1, 0]).length : ℚ) := by
  have hc : signedContributions [⟨"a", "t", "g", true, [3, 4]⟩] [1, 0] = [3/5] := by
    simp [signedContributions, cosine_34]
  have h1 : (scoreRules [⟨"a", "t", "g", true, [3, 4]⟩] [1, 0]).1 = 1/10 := by
    rw [scoreRules_fst, hc]
    rw [show List.insertionSort (fun x y => y ≤ x) [(3 : ℚ)/5] = [3/5] from rfl]
    norm_num
  refine ⟨hc, h1, ?_⟩
  rw [h1, hc]
  simp only [List.sum_cons, List.sum_nil, List.length_cons, List.length_nil]
  norm_num

/-- C6 (amended, proved): the composite score is the sum of the top
`min(6, n)` signed contributions — contributions sorted descending, the
first 6 taken — divided by the constant 6 (not by `n` when `n < 6`); a
match record is collected exactly for the rules whose raw similarity
exceeds 0.35, in rule order; and with no rules the score is 0 with no
matches. -/
theorem compositeScore_amended (svs : List SentenceVector) (pv : List ℚ) :
    ((scoreRules svs pv).1 =
        (((signedContributions svs pv).insertionSort fun x y => y ≤ x).take 6).sum / 6) ∧
      List.Sorted (fun x y => y ≤ x)
        ((signedContributions svs pv).insertionSort fun x y => y ≤ x) ∧
      ((signedContributions svs pv).insertionSort fun x y => y ≤ x).Perm
        (signedContributions svs pv) ∧
      (svs.length ≤ 6 →
        (scoreRules svs pv).1 = (signedContributions svs pv).sum / 6) ∧
      (scoreRules svs pv).2 = matchesOf svs pv ∧
      (svs = [] → scoreRules svs pv = (0, [])) := by
  haveI : IsTotal ℚ (fun x y => y ≤ x) := ⟨fun a b => le_total b a⟩
  haveI : IsTrans ℚ (fun x y => y ≤ x) := ⟨fun a b c h1 h2 => le_trans h2 h1⟩
  have hperm : ((signedContributions svs pv).insertionSort fun x y => y ≤ x).Perm
      (signedContributions svs pv) := List.perm_insertionSort _ _
  refine ⟨scoreRules_fst svs pv, List.sorted_insertionSort _ _, hperm, ?_,
    scoreRules_snd svs pv, ?_⟩
  · intro hlen
    have hlc : (signedContributions svs pv).length ≤ 6 := by
      simpa [signedContributions] using hlen
    have hls : ((signedContributions svs pv).insertionSort fun x y => y ≤ x).length ≤ 6 := by
      rw [hperm.length_eq]
      exact hlc
    rw [scoreRules_fst, List.take_of_length_le hls, hperm.sum_eq]
  · intro h
    subst h
    rfl

/-- Witness for C6's amended theorem: one rule (fewer than 6), and the
empty rule list. -/
theorem compositeScore_amended_witness :
    ([⟨"a", "t", "g", true, [3, 4]⟩] : List SentenceVector).length ≤ 6 ∧
      (scoreRules [⟨"a", "t", "g", true, [3, 4]⟩] [1, 0]).1 =
        (signedContributions [⟨"a", "t", "g", true, [3, 4]⟩] [1, 0]).sum / 6 ∧
      scoreRules ([] : List SentenceVector) [1, 0] = (0, []) :=
  ⟨by norm_num,
    (compositeScore_amended [⟨"a", "t", "g", true, [3, 4]⟩] [1, 0]).2.2.2.1 (by norm_num),
    (compositeScore_amended [] [1, 0]).2.2.2.2.2 rfl⟩

/-- C10 (counterexample): two rules with raw similarities 0.6 then 0.8 both
clear the 0.35 floor; `topMatches` keeps them in rule-supply order
`[0.6, 0.8]`, so the record with the highest raw similarity is **not**
first: the code never sorts the match list. -/
theorem topMatches_counterexample :
    ((resultMatches (scoreRules
        [⟨"a", "t", "g", true, [3, 4]⟩, ⟨"b", "u", "h", true, [4, 3]⟩] [1, 0]).2).map
          MatchDetail.rawScore = [3/5, 4/5]) ∧
      ¬ List.Sorted (fun x y => y ≤ x)
        ((resultMatches (scoreRules
          [⟨"a", "t", "g", true, [3, 4]⟩, ⟨"b", "u", "h", true, [4, 3]⟩] [1, 0]).2).map
            MatchDetail.rawScore) := by
  have hmof : matchesOf [⟨"a", "t", "g", true, [3, 4]⟩, ⟨"b", "u", "h", true, [4, 3]⟩]
      [1, 0] = [mkMatchDetail ⟨"a", "t", "g", true, [3, 4]⟩ [1, 0],
        mkMatchDetail ⟨"b", "u", "h", true, [4, 3]⟩ [1, 0]] := by
    unfold matchesOf
    rw [List.filter_cons, List.filter_cons, List.filter_nil]
    dsimp only
    rw [cosine_34, cosine_43]
    rw [if_pos (decide_eq_true (by norm_num : (7 : ℚ)/20 < 3/5)),
      if_pos (decide_eq_true (by norm_num : (7 : ℚ)/20 < 4/5))]
    rfl
  have hfinal : (resultMatches (scoreRules
      [⟨"a", "t", "g", true, [3, 4]⟩, ⟨"b", "u", "h", true, [4, 3]⟩] [1, 0]).2).map
        MatchDetail.rawScore = [3/5, 4/5] := by
    rw [scoreRules_snd, hmof]
    simp only [resultMatches, List.take, List.map_cons, List.map_nil]
    rw [show (mkMatchDetail ⟨"a", "t", "g", true, [3, 4]⟩ [1, 0]).rawScore =
        cosineSimilarity [3, 4] [1, 0] from rfl,
      show (mkMatchDetail ⟨"b", "u", "h", true, [4, 3]⟩ [1, 0]).rawScore =
        cosineSimilarity [4, 3] [1, 0] from rfl,
      cosine_34, cosine_43]
  refine ⟨hfinal, ?_⟩
  rw [hfinal]
  intro hs
  have h45 := (List.sorted_cons.mp hs).1 (4/5) (by simp)
  norm_num at h45

/-- C10 (amended, proved): `topMatches` holds at most 3 records — the first
3 collected match records in rule-supply order (a prefix of the full match
list, which is the in-order filter of rules above the 0.35 floor) — with no
sorting by raw similarity. -/
theorem topMatches_amended (svs : List SentenceVector) (pv : List ℚ) :
    (resultMatches (scoreRules svs pv).2).length ≤ 3 ∧
      resultMatches (scoreRules svs pv).2 ++ ((scoreRules svs pv).2).drop 3 =
        (scoreRules svs pv).2 ∧
      (scoreRules svs pv).2 = matchesOf svs pv := by
  refine ⟨?_, List.take_append_drop 3 _, scoreRules_snd svs pv⟩
  simp only [resultMatches, List.length_take]
  exact min_le_left _ _

end EcoScholar
